import Mathlib

/-!
Verification of the tailoring-shop backend core (Start-B): the sequence
allocator `get_next_sequence`, the bill-number formatter `format_bill_no`,
and the workflow state machine `update_workflow_stage`, shallowly embedded
from `src/app.py`.

Modelling conventions:
* MongoDB collections become explicit state.  The counters collection is
  `Option (String → Nat)` (`none` = `counters_collection is None`; a name
  never allocated maps to `0`, matching `$inc` upsert semantics where a
  missing document's `seq` counts as 0).  A flag `countersFail` models
  `find_one_and_update` raising an exception; `bills : Option Nat` models
  `bills_collection` (`none` = unavailable, `some n` = `count_documents` = n).
* Timestamps (`datetime.now().isoformat()`) are abstracted to a `Nat`
  parameter `now` passed to the operation.
* Python string truthiness (`if not new_status`, `if assigned_tailor`) is
  modelled on `Option String`: `none` (Python `None`) and `some ""` are falsy.
* The JSON request body of `update_workflow_stage` is modelled by the three
  optional fields it reads: `status`, `notes` (code default `''`),
  `assigned_tailor` (code default `None`).
* An error response (HTTP 400/404 before the `update_one` write) is
  `Except.error msg`; the stored job is only replaced on `Except.ok`.
-/

/-- The list `valid_statuses = ['pending', 'in_progress', 'completed',
'on_hold']` from `update_workflow_stage`. -/
def valid_statuses : List String := ["pending", "in_progress", "completed", "on_hold"]

/-- The list `stage_names = ['cutting', 'stitching', 'finishing',
'packaging']` from `update_workflow_stage`. -/
def stage_names : List String := ["cutting", "stitching", "finishing", "packaging"]

/-- One workflow-stage document, as stored in `job['workflow_stages']`. -/
structure Stage where
  name : String
  status : String
  started_at : Option Nat
  completed_at : Option Nat
  assigned_tailor : Option String
  notes : Option String
  updated_at : Nat
deriving DecidableEq, Repr

/-- The fields of a job document that `update_workflow_stage` reads or
writes (`workflow_stages`, `current_stage`, `progress_percentage`,
`status`, job-level `updated_at`). -/
structure Job where
  workflow_stages : List Stage
  current_stage : String
  progress_percentage : ℚ
  status : String
  updated_at : Nat
deriving DecidableEq, Repr

/-- Python string truthiness of an optional string: `None` and `''` are
falsy, every other string is truthy. -/
def pyTruthy : Option String → Bool
  | none => false
  | some s => s ≠ ""

/-- The body of the `for stage in workflow_stages` loop on the matched
stage: set `status`, `notes`, `updated_at`; set `assigned_tailor` if
truthy; set `started_at := now` if old status was `pending` and the new
one is `in_progress`; set `completed_at := now` if the new status is
`completed`. -/
def mutateStage (s : Stage) (new_status notesVal : String)
    (assigned_tailor : Option String) (now : Nat) : Stage :=
  let s1 : Stage := { s with status := new_status, notes := some notesVal, updated_at := now }
  let s2 : Stage := if pyTruthy assigned_tailor then { s1 with assigned_tailor := assigned_tailor } else s1
  let s3 : Stage := if s.status = "pending" ∧ new_status = "in_progress" then
    { s2 with started_at := some now } else s2
  if new_status = "completed" then { s3 with completed_at := some now } else s3

/-- The `for stage in workflow_stages: if stage['name'] == stage_name: …
break` loop: mutate the first stage whose name matches and report whether
one was found (`stage_found`). -/
def updateMatchedStage (stage_name new_status notesVal : String)
    (assigned_tailor : Option String) (now : Nat) :
    List Stage → List Stage × Bool
  | [] => ([], false)
  | s :: rest =>
    if s.name = stage_name then
      (mutateStage s new_status notesVal assigned_tailor now :: rest, true)
    else
      let r := updateMatchedStage stage_name new_status notesVal assigned_tailor now rest
      (s :: r.1, r.2)

/-- The `# Determine current stage` loop of `update_workflow_stage`:
starting from `current_stage = 'cutting'`, walk the stages with index `i`;
on the first `in_progress`/`on_hold` stage return its name (break); on a
`completed` stage with `i < len(stage_names) - 1` update the candidate to
`stage_names[i + 1]` and continue; otherwise continue unchanged. -/
def currentStageLoop : List Stage → Nat → String → String
  | [], _, cur => cur
  | s :: rest, i, cur =>
    if s.status = "in_progress" ∨ s.status = "on_hold" then s.name
    else if s.status = "completed" ∧ i < stage_names.length - 1 then
      currentStageLoop rest (i + 1) (stage_names.getD (i + 1) "")
    else
      currentStageLoop rest (i + 1) cur

/-- The count `completed_stages = sum(1 for stage in workflow_stages if
stage['status'] == 'completed')`. -/
def completedCount (stages : List Stage) : Nat :=
  stages.countP (fun s => s.status == "completed")

/-- The value `progress_percentage = (completed_stages / len(stage_names))
* 100`; Python float division is exact on these values, modelled in `ℚ`. -/
def progressOf (stages : List Stage) : ℚ :=
  ((completedCount stages : ℚ) / (stage_names.length : ℚ)) * 100

/-- The `# Update overall job status` branch: `completed` at 100,
`in_progress` when positive, else `assigned`. -/
def overallStatus (p : ℚ) : String :=
  if p = 100 then "completed" else if p > 0 then "in_progress" else "assigned"

/-- The route handler body `update_workflow_stage` for a job that has
its `workflow_stages` field: validate the status (`Status is required`,
`Invalid status`), mutate the first matching stage (`Invalid stage name`
when none matches), recompute `progress_percentage`, `current_stage` and
overall `status`, and return the job document written by `update_one`.
Errors are returned before the write, so the stored job is unchanged on
`Except.error`. -/
def update_workflow_stage (job : Job) (stage_name : String)
    (new_status notes assigned_tailor : Option String) (now : Nat) :
    Except String Job :=
  if ¬ pyTruthy new_status then Except.error "Status is required"
  else
    let ns := new_status.getD ""
    if ns ∉ valid_statuses then Except.error "Invalid status"
    else
      let notesVal := notes.getD ""
      let r := updateMatchedStage stage_name ns notesVal assigned_tailor now job.workflow_stages
      if ¬ r.2 then Except.error "Invalid stage name"
      else
        let progress := progressOf r.1
        Except.ok
          { workflow_stages := r.1
            current_stage := currentStageLoop r.1 0 "cutting"
            progress_percentage := progress
            status := overallStatus progress
            updated_at := now }

/-- The effect of a call on the stored job: `jobs_collection.update_one`
runs only on success, so an error leaves the stored document as it was. -/
def apply_update (job : Job) (stage_name : String)
    (new_status notes assigned_tailor : Option String) (now : Nat) : Job :=
  match update_workflow_stage job stage_name new_status notes assigned_tailor now with
  | Except.ok j => j
  | Except.error _ => job

/-- State of the datastore as seen by `get_next_sequence`:
`counters = none` models `counters_collection is None`; otherwise the map
from counter name to stored `seq` (0 for a name with no document yet);
`countersFail` models `find_one_and_update` raising; `bills` models
`bills_collection` (`some n` = it holds `n` documents, `none` = absent). -/
structure DBState where
  counters : Option (String → Nat)
  countersFail : Bool
  bills : Option Nat

/-- The allocator `get_next_sequence(name)` from `src/app.py`: if the counters
collection is absent return 1; otherwise atomically `$inc` the counter and
return the new value; if that raises, fall back to
`bills_collection.count_documents({}) + 1` (or 1 when the bills collection
is also absent).  Returns the value together with the new store state. -/
def get_next_sequence (st : DBState) (name : String) : Nat × DBState :=
  match st.counters with
  | none => (1, st)
  | some m =>
    if st.countersFail then
      (match st.bills with
       | some c => c + 1
       | none => 1, st)
    else
      let newVal := m name + 1
      (newVal, { st with counters := some (fun k => if k = name then newVal else m k) })

/-- Stored value of a counter, when the counters collection exists. -/
def counterVal (st : DBState) (name : String) : Option Nat :=
  st.counters.map (fun m => m name)

/-- Runs `n` successive calls of `get_next_sequence` on the same name,
returning the list of returned values and the final store state. -/
def allocate_trace (st : DBState) (name : String) : Nat → List Nat × DBState
  | 0 => ([], st)
  | n + 1 =>
    let r := get_next_sequence st name
    let t := allocate_trace r.2 name n
    (r.1 :: t.1, t.2)

/-- Python's `str.zfill`: left-pad with `'0'` up to `width`, returning the
string unchanged when it is already at least that long (the sign handling
of Python's `zfill` is vacuous for a natural number). -/
def zfill (s : String) (width : Nat) : String :=
  if s.length < width then String.mk (List.replicate (width - s.length) '0') ++ s else s

/-- The formatter `format_bill_no(n, width=3)` from `src/app.py`,
`str(int(n)).zfill(width)` (the `except` branch is unreachable for an
integer argument). -/
def format_bill_no (n : Nat) (width : Nat := 3) : String :=
  zfill (toString n) width

/-! ### Specification-side definitions (for refinement claims)

`specCurrentStage` below is written from the specification's words, not
from the source; it is compared against the source-derived
`currentStageLoop`. -/

/-- Index of the last stage (in list order) whose status is `completed`,
if any. -/
def lastCompletedIndex (sts : List String) : Option Nat :=
  (((sts.enum).filter (fun p => p.2 == "completed")).map (fun p => p.1)).getLast?

/-- Specification-side scan, written from the spec's words for the four
statuses in the fixed order cutting, stitching, finishing, packaging:
the first stage whose status is `in_progress` or `on_hold` is current; if
none, the stage immediately following the last `completed` stage is
current; if all four are `completed`, the last stage name is current.
Cases the spec leaves undefined (no active and no completed stage, or the
last completed stage being the final one without all being completed)
yield `none`. -/
def specCurrentStage (sts : List String) : Option String :=
  match sts.findIdx? (fun st => st == "in_progress" || st == "on_hold") with
  | some i => some (stage_names.getD i "")
  | none =>
    if sts.all (fun st => st == "completed") then
      some (stage_names.getLastD "")
    else
      match lastCompletedIndex sts with
      | some i => if i + 1 < stage_names.length then some (stage_names.getD (i + 1) "") else none
      | none => none

/-! ### Concrete fixtures used in witnesses and counterexamples -/

/-- A stage document with the given name and status and all optional
fields unset. -/
def mkStage (nm st : String) : Stage :=
  { name := nm, status := st, started_at := none, completed_at := none,
    assigned_tailor := none, notes := none, updated_at := 0 }

/-- The four default stages of a freshly provisioned job, all `pending`. -/
def freshStages : List Stage :=
  [mkStage "cutting" "pending", mkStage "stitching" "pending",
   mkStage "finishing" "pending", mkStage "packaging" "pending"]

/-- The canonical four stages with given statuses and all optional fields
unset. -/
def canonStages (s0 s1 s2 s3 : String) : List Stage :=
  [mkStage "cutting" s0, mkStage "stitching" s1, mkStage "finishing" s2, mkStage "packaging" s3]

/-- A freshly provisioned job: four pending stages, zero progress. -/
def freshJob : Job :=
  { workflow_stages := freshStages, current_stage := "cutting",
    progress_percentage := 0, status := "assigned", updated_at := 0 }

/-- The fresh job after starting `cutting` at time 1. -/
def jobStarted : Job := apply_update freshJob "cutting" (some "in_progress") none none 1

/-- `jobStarted` after resetting `cutting` to `pending` at time 2. -/
def jobReset : Job := apply_update jobStarted "cutting" (some "pending") none none 2

/-- `jobReset` after starting `cutting` again at time 3. -/
def jobRestarted : Job := apply_update jobReset "cutting" (some "in_progress") none none 3

/-- The fresh job after directly completing `cutting` at time 1. -/
def jobCuttingCompleted : Job := apply_update freshJob "cutting" (some "completed") none none 1

/-- A fresh job whose cutting stage carries pre-existing notes. -/
def notesJob : Job :=
  { workflow_stages :=
      [{ mkStage "cutting" "pending" with notes := some "old" },
       mkStage "stitching" "pending", mkStage "finishing" "pending",
       mkStage "packaging" "pending"],
    current_stage := "cutting", progress_percentage := 0,
    status := "assigned", updated_at := 0 }

/-- A store where the counters collection is absent. -/
def downStore : DBState := { counters := none, countersFail := false, bills := some 5 }

/-- A store where the counters collection exists (counter at 7) but the
atomic increment raises, with 5 bill documents present. -/
def failStore : DBState := { counters := some (fun _ => 7), countersFail := true, bills := some 5 }

/-- A healthy store with no counter documents yet. -/
def healthyStore : DBState := { counters := some (fun _ => 0), countersFail := false, bills := some 0 }

/-! ### Helper lemmas -/

lemma mutateStage_name (s : Stage) (ns nv : String) (tailor : Option String) (now : Nat) :
    (mutateStage s ns nv tailor now).name = s.name := by
  unfold mutateStage
  split <;> split <;> split <;> rfl

lemma mutateStage_status (s : Stage) (ns nv : String) (tailor : Option String) (now : Nat) :
    (mutateStage s ns nv tailor now).status = ns := by
  unfold mutateStage
  split <;> split <;> split <;> rfl

lemma mutateStage_notes (s : Stage) (ns nv : String) (tailor : Option String) (now : Nat) :
    (mutateStage s ns nv tailor now).notes = some nv := by
  unfold mutateStage
  split <;> split <;> split <;> rfl

lemma mutateStage_updated_at (s : Stage) (ns nv : String) (tailor : Option String) (now : Nat) :
    (mutateStage s ns nv tailor now).updated_at = now := by
  unfold mutateStage
  split <;> split <;> split <;> rfl

lemma mutateStage_assigned_tailor (s : Stage) (ns nv : String) (tailor : Option String) (now : Nat) :
    (mutateStage s ns nv tailor now).assigned_tailor =
      (if pyTruthy tailor then tailor else s.assigned_tailor) := by
  unfold mutateStage
  split <;> split <;> split <;> rfl

lemma mutateStage_started_at (s : Stage) (ns nv : String) (tailor : Option String) (now : Nat) :
    (mutateStage s ns nv tailor now).started_at =
      (if s.status = "pending" ∧ ns = "in_progress" then some now else s.started_at) := by
  unfold mutateStage
  split <;> split <;> split <;> rfl

lemma mutateStage_completed_at (s : Stage) (ns nv : String) (tailor : Option String) (now : Nat) :
    (mutateStage s ns nv tailor now).completed_at =
      (if ns = "completed" then some now else s.completed_at) := by
  unfold mutateStage
  split <;> split <;> split <;> rfl

/-! ### Theorems -/

/-- C9: `format_bill_no` is a pure function rendering its argument as a
zero-left-padded decimal string of at least `width` characters, at full
length without truncation when the number has more digits than `width`;
in particular `format_bill_no 7 3 = "007"` and
`format_bill_no 12345 3 = "12345"`. -/
theorem C9_format_bill_no (n width : Nat) :
    format_bill_no n width =
      String.mk (List.replicate (width - (toString n).length) '0') ++ toString n ∧
    (format_bill_no n width).length = max (toString n).length width ∧
    format_bill_no 7 3 = "007" ∧
    format_bill_no 12345 3 = "12345" := by
  refine ⟨?_, ?_, by decide, by decide⟩
  · unfold format_bill_no zfill
    split
    · rfl
    · rename_i hlt
      have h0 : width - (toString n).length = 0 := by omega
      rw [h0]
      rfl
  · unfold format_bill_no zfill
    split
    · rename_i hlt
      rw [String.length_append]
      have hmk : (String.mk (List.replicate (width - (toString n).length) '0')).length
          = width - (toString n).length := by
        show (List.replicate (width - (toString n).length) '0').length = _
        rw [List.length_replicate]
      rw [hmk]
      omega
    · rename_i hlt
      omega

lemma updateMatchedStage_found_iff (stage_name ns nv : String) (tailor : Option String)
    (now : Nat) : ∀ stages : List Stage,
    (updateMatchedStage stage_name ns nv tailor now stages).2 = true ↔
      stage_name ∈ stages.map (fun s => s.name)
  | [] => by simp [updateMatchedStage]
  | s :: rest => by
    by_cases hn : s.name = stage_name
    · simp [updateMatchedStage, hn]
    · simp only [updateMatchedStage, if_neg hn, List.map_cons, List.mem_cons]
      rw [updateMatchedStage_found_iff stage_name ns nv tailor now rest]
      constructor
      · exact Or.inr
      · rintro (h | h)
        · exact absurd h.symm hn
        · exact h

lemma updateMatchedStage_cons_ne (stage_name ns nv : String) (tailor : Option String)
    (now : Nat) (t : Stage) (rest : List Stage) (ht : t.name ≠ stage_name) :
    updateMatchedStage stage_name ns nv tailor now (t :: rest) =
      (t :: (updateMatchedStage stage_name ns nv tailor now rest).1,
        (updateMatchedStage stage_name ns nv tailor now rest).2) := by
  simp only [updateMatchedStage, if_neg ht]

lemma updateMatchedStage_decomp (stage_name ns nv : String) (tailor : Option String)
    (now : Nat) (s : Stage) (hs : s.name = stage_name) :
    ∀ (pre : List Stage), (∀ t ∈ pre, t.name ≠ stage_name) → ∀ (post : List Stage),
    updateMatchedStage stage_name ns nv tailor now (pre ++ s :: post) =
      (pre ++ mutateStage s ns nv tailor now :: post, true)
  | [], _, post => by simp [updateMatchedStage, hs]
  | t :: pre, hpre, post => by
    have ht : t.name ≠ stage_name := hpre t (List.mem_cons_self t pre)
    have hpre' : ∀ u ∈ pre, u.name ≠ stage_name := fun u hu => hpre u (List.mem_cons_of_mem t hu)
    rw [List.cons_append, updateMatchedStage_cons_ne stage_name ns nv tailor now t _ ht,
      updateMatchedStage_decomp stage_name ns nv tailor now s hs pre hpre' post,
      List.cons_append]

lemma updateMatchedStage_names (stage_name ns nv : String) (tailor : Option String)
    (now : Nat) : ∀ stages : List Stage,
    (updateMatchedStage stage_name ns nv tailor now stages).1.map (fun s => s.name) =
      stages.map (fun s => s.name)
  | [] => by simp [updateMatchedStage]
  | s :: rest => by
    by_cases hn : s.name = stage_name
    · simp [updateMatchedStage, hn, mutateStage_name]
    · simp only [updateMatchedStage, if_neg hn, List.map_cons,
        updateMatchedStage_names stage_name ns nv tailor now rest]

lemma updateMatchedStage_valid_statuses (stage_name ns nv : String) (tailor : Option String)
    (now : Nat) (hns : ns ∈ valid_statuses) : ∀ stages : List Stage,
    (∀ s ∈ stages, s.status ∈ valid_statuses) →
    ∀ t ∈ (updateMatchedStage stage_name ns nv tailor now stages).1, t.status ∈ valid_statuses
  | [], _ => by simp [updateMatchedStage]
  | s :: rest, hall => by
    have hrest : ∀ u ∈ rest, u.status ∈ valid_statuses :=
      fun u hu => hall u (List.mem_cons_of_mem s hu)
    by_cases hn : s.name = stage_name
    · intro t ht
      simp only [updateMatchedStage, if_pos hn, List.mem_cons] at ht
      rcases ht with rfl | ht
      · rw [mutateStage_status]; exact hns
      · exact hrest t ht
    · intro t ht
      simp only [updateMatchedStage, if_neg hn, List.mem_cons] at ht
      rcases ht with rfl | ht
      · exact hall t (List.mem_cons_self t rest)
      · exact updateMatchedStage_valid_statuses stage_name ns nv tailor now hns rest hrest t ht

lemma pyTruthy_true_iff (o : Option String) :
    pyTruthy o = true ↔ ∃ s, o = some s ∧ s ≠ "" := by
  cases o with
  | none => simp [pyTruthy]
  | some s => simp [pyTruthy]

lemma update_ok_shape (job : Job) (stage_name : String)
    (new_status notes assigned_tailor : Option String) (now : Nat) (j : Job)
    (h : update_workflow_stage job stage_name new_status notes assigned_tailor now =
      Except.ok j) :
    ∃ ns, new_status = some ns ∧ ns ≠ "" ∧ ns ∈ valid_statuses ∧
      (updateMatchedStage stage_name ns (notes.getD "") assigned_tailor now
        job.workflow_stages).2 = true ∧
      j = { workflow_stages :=
              (updateMatchedStage stage_name ns (notes.getD "") assigned_tailor now
                job.workflow_stages).1
            current_stage :=
              currentStageLoop
                (updateMatchedStage stage_name ns (notes.getD "") assigned_tailor now
                  job.workflow_stages).1 0 "cutting"
            progress_percentage :=
              progressOf
                (updateMatchedStage stage_name ns (notes.getD "") assigned_tailor now
                  job.workflow_stages).1
            status :=
              overallStatus (progressOf
                (updateMatchedStage stage_name ns (notes.getD "") assigned_tailor now
                  job.workflow_stages).1)
            updated_at := now } := by
  unfold update_workflow_stage at h
  by_cases h1 : pyTruthy new_status
  · rw [if_neg (by simpa using h1)] at h
    obtain ⟨ns, hns, hne⟩ := (pyTruthy_true_iff new_status).mp (by simpa using h1)
    subst hns
    simp only [Option.getD_some] at h
    by_cases h2 : ns ∈ valid_statuses
    · rw [if_neg (by simpa using h2)] at h
      by_cases h3 : (updateMatchedStage stage_name ns (notes.getD "") assigned_tailor now
          job.workflow_stages).2 = true
      · rw [if_neg (by simpa using h3)] at h
        exact ⟨ns, rfl, hne, h2, h3, (Except.ok.inj h).symm⟩
      · rw [if_pos (by simpa using h3)] at h
        exact absurd h (by simp)
    · rw [if_pos (by simpa using h2)] at h
      exact absurd h (by simp)
  · rw [if_pos (by simpa using h1)] at h
    exact absurd h (by simp)

/-- C3: an `update_stage` call whose stage name is not among the job's
stage names, or whose new status is not one of the four valid statuses,
signals an invalid-input error (no `ok` result) and leaves the stored job,
all stages and derived fields included, completely unchanged. -/
theorem C3_invalid_input_rejected (job : Job) (stage_name : String)
    (new_status notes assigned_tailor : Option String) (now : Nat)
    (h : new_status.getD "" ∉ valid_statuses ∨
      stage_name ∉ job.workflow_stages.map (fun s => s.name)) :
    (update_workflow_stage job stage_name new_status notes assigned_tailor now).isOk = false ∧
    apply_update job stage_name new_status notes assigned_tailor now = job := by
  have herr : ∃ msg, update_workflow_stage job stage_name new_status notes assigned_tailor now
      = Except.error msg := by
    unfold update_workflow_stage
    by_cases h1 : pyTruthy new_status
    · obtain ⟨s, hs, hne⟩ := (pyTruthy_true_iff new_status).mp (by simpa using h1)
      subst hs
      rw [if_neg (by simpa using h1)]
      simp only [Option.getD_some]
      by_cases h2 : s ∈ valid_statuses
      · rw [if_neg (by simpa using h2)]
        rcases h with h | h
        · rw [Option.getD_some] at h
          exact absurd h2 h
        · have hnf : ¬ (updateMatchedStage stage_name s (notes.getD "") assigned_tailor now
              job.workflow_stages).2 = true := fun hf =>
            h ((updateMatchedStage_found_iff stage_name s (notes.getD "") assigned_tailor now
              job.workflow_stages).mp hf)
          rw [if_pos (by simpa using hnf)]
          exact ⟨_, rfl⟩
      · rw [if_pos (by simpa using h2)]
        exact ⟨_, rfl⟩
    · rw [if_pos (by simpa using h1)]
      exact ⟨_, rfl⟩
  obtain ⟨msg, herr⟩ := herr
  constructor
  · rw [herr]
    rfl
  · unfold apply_update
    rw [herr]

/-- Witness for C3 at a concrete input: updating the unknown stage
`sewing` on a fresh job errors out and leaves the job unchanged. -/
theorem C3_invalid_input_rejected_witness :
    (update_workflow_stage freshJob "sewing" (some "in_progress") none none 1).isOk = false ∧
    apply_update freshJob "sewing" (some "in_progress") none none 1 = freshJob :=
  C3_invalid_input_rejected freshJob "sewing" (some "in_progress") none none 1
    (Or.inr (by decide))

/-- C2 counterexample: with the counters collection absent (the persistent
register unreachable), `get_next_sequence` does not report any error — it
silently fabricates and returns the number 1, leaving the store as it was.
Its return type carries no error channel at all, so no caller can observe
a failure. -/
theorem C2_counterexample :
    (get_next_sequence downStore "bill_no").1 = 1 ∧
    (get_next_sequence downStore "bill_no").2 = downStore :=
  ⟨rfl, rfl⟩

/-- C2 amended: when the counters collection is absent, or the atomic
increment raises, `get_next_sequence` silently returns a fabricated
number — 1 when the counters collection is absent, otherwise the bill
count plus 1 (1 again when the bills collection is also absent) — and
leaves the store unchanged; it never reports an error. -/
theorem C2_fallback_fabricates (st : DBState) (name : String)
    (h : st.counters = none ∨ st.countersFail = true) :
    (get_next_sequence st name).1 =
      (match st.counters, st.bills with
       | none, _ => 1
       | some _, some c => c + 1
       | some _, none => 1) ∧
    (get_next_sequence st name).2 = st := by
  rcases h with h | h
  · rw [show get_next_sequence st name = (1, st) from by unfold get_next_sequence; rw [h]]
    rw [h]
    exact ⟨rfl, rfl⟩
  · cases hc : st.counters with
    | none =>
      rw [show get_next_sequence st name = (1, st) from by unfold get_next_sequence; rw [hc]]
      exact ⟨rfl, rfl⟩
    | some m =>
      cases hb : st.bills with
      | none =>
        refine ⟨?_, ?_⟩ <;>
          · unfold get_next_sequence
            rw [hc]
            simp [h, hb]
      | some c =>
        refine ⟨?_, ?_⟩ <;>
          · unfold get_next_sequence
            rw [hc]
            simp [h, hb]

/-- Witness for C2's amended statement: with a failing increment over a
store holding 5 bills, the allocator silently returns 6. -/
theorem C2_fallback_fabricates_witness :
    (get_next_sequence failStore "bill_no").1 =
      (match failStore.counters, failStore.bills with
       | none, _ => 1
       | some _, some c => c + 1
       | some _, none => 1) ∧
    (get_next_sequence failStore "bill_no").2 = failStore :=
  C2_fallback_fabricates failStore "bill_no" (Or.inr rfl)

lemma allocate_trace_healthy (name : String) :
    ∀ (n : Nat) (st : DBState) (m : String → Nat) (v : Nat),
    st.counters = some m → m name = v → st.countersFail = false →
    (allocate_trace st name n).1 = (List.range n).map (fun i => v + i + 1) ∧
    ∃ m2, (allocate_trace st name n).2.counters = some m2 ∧ m2 name = v + n ∧
      (allocate_trace st name n).2.countersFail = false
  | 0, st, m, v, hc, hv, hf => by
    refine ⟨rfl, m, hc, by omega, hf⟩
  | n + 1, st, m, v, hc, hv, hf => by
    have hstep : get_next_sequence st name =
        (m name + 1,
          { st with counters := some (fun k => if k = name then m name + 1 else m k) }) := by
      unfold get_next_sequence
      rw [hc]
      simp [hf]
    have hc' : ({ st with
        counters := some (fun k => if k = name then m name + 1 else m k) } : DBState).counters
        = some (fun k => if k = name then m name + 1 else m k) := rfl
    have hv' : (fun k => if k = name then m name + 1 else m k) name = v + 1 := by
      simp [hv]
    have hf' : ({ st with
        counters := some (fun k => if k = name then m name + 1 else m k) } : DBState).countersFail
        = false := hf
    obtain ⟨htrace, m2, hm2, hval, hff⟩ :=
      allocate_trace_healthy name n _ _ _ hc' hv' hf'
    constructor
    · simp only [allocate_trace, hstep]
      rw [htrace, hv]
      rw [List.range_succ_eq_map, List.map_cons, List.map_map]
      refine List.cons_eq_cons.mpr ⟨by omega, ?_⟩
      refine List.map_congr_left (fun i _ => ?_)
      simp only [Function.comp_apply]
      omega
    · refine ⟨m2, ?_, ?_, ?_⟩
      · simp only [allocate_trace, hstep]
        exact hm2
      · rw [hval]
        omega
      · simp only [allocate_trace, hstep]
        exact hff

/-- C1: on a reachable counters store whose atomic increment works, a run
of `n` allocations for a counter whose stored value is `m name` returns
exactly `m name + 1, …, m name + n`: each call returns the stored value
plus one and leaves that value stored, the returned values are strictly
increasing and never repeat, and the first call for an unseen name
(stored value 0) returns 1. -/
theorem C1_allocator_monotone (st : DBState) (m : String → Nat) (name : String)
    (hc : st.counters = some m) (hf : st.countersFail = false) (n : Nat) :
    (allocate_trace st name n).1 = (List.range n).map (fun i => m name + i + 1) ∧
    counterVal (allocate_trace st name n).2 name = some (m name + n) ∧
    (allocate_trace st name n).1.Pairwise (· < ·) ∧
    (allocate_trace st name n).1.Nodup := by
  obtain ⟨htrace, m2, hm2, hval, _⟩ := allocate_trace_healthy name n st m (m name) hc rfl hf
  have hpair : (allocate_trace st name n).1.Pairwise (· < ·) := by
    rw [htrace, List.pairwise_map]
    exact (List.pairwise_lt_range n).imp (fun h => by omega)
  refine ⟨htrace, ?_, hpair, hpair.imp ne_of_lt⟩
  unfold counterVal
  rw [hm2]
  simp [hval]

/-- Witness for C1: three allocations on a fresh store return [1, 2, 3]
and leave 3 stored. -/
theorem C1_allocator_monotone_witness :
    (allocate_trace healthyStore "bill_no" 3).1 =
      (List.range 3).map (fun i => 0 + i + 1) ∧
    counterVal (allocate_trace healthyStore "bill_no" 3).2 "bill_no" = some (0 + 3) ∧
    (allocate_trace healthyStore "bill_no" 3).1.Pairwise (· < ·) ∧
    (allocate_trace healthyStore "bill_no" 3).1.Nodup :=
  C1_allocator_monotone healthyStore (fun _ => 0) "bill_no" rfl rfl 3

lemma overallStatus_spec (p : ℚ) :
    (p = 100 → overallStatus p = "completed") ∧
    (0 < p ∧ p < 100 → overallStatus p = "in_progress") ∧
    (p = 0 → overallStatus p = "assigned") := by
  unfold overallStatus
  refine ⟨?_, ?_, ?_⟩
  · intro h
    rw [if_pos h]
  · rintro ⟨h1, h2⟩
    rw [if_neg (ne_of_lt h2), if_pos h1]
  · intro h
    subst h
    norm_num

/-- C4: after every successful `update_stage` call, the job's
`progress_percentage` equals 100 × (count of stages with status
`completed`) / 4, and the overall status is `completed` at 100,
`in_progress` strictly between 0 and 100, and `assigned` at 0. -/
theorem C4_progress_and_status (job : Job) (stage_name : String)
    (new_status notes assigned_tailor : Option String) (now : Nat) (j : Job)
    (h : update_workflow_stage job stage_name new_status notes assigned_tailor now =
      Except.ok j) :
    j.progress_percentage = 100 * (completedCount j.workflow_stages : ℚ) / 4 ∧
    (j.progress_percentage = 100 → j.status = "completed") ∧
    (0 < j.progress_percentage ∧ j.progress_percentage < 100 → j.status = "in_progress") ∧
    (j.progress_percentage = 0 → j.status = "assigned") := by
  obtain ⟨ns, hns, hne, hv, hfound, hj⟩ :=
    update_ok_shape job stage_name new_status notes assigned_tailor now j h
  subst hj
  refine ⟨?_, ?_, ?_, ?_⟩
  · show progressOf _ = 100 * (completedCount _ : ℚ) / 4
    unfold progressOf
    rw [show ((stage_names.length : ℚ)) = 4 by norm_num [stage_names]]
    ring
  · exact (overallStatus_spec _).1
  · exact (overallStatus_spec _).2.1
  · exact (overallStatus_spec _).2.2

/-- Witness for C4: directly completing `cutting` on a fresh job gives the
claimed progress formula and status derivation. -/
theorem C4_progress_and_status_witness :
    jobCuttingCompleted.progress_percentage =
      100 * (completedCount jobCuttingCompleted.workflow_stages : ℚ) / 4 ∧
    (jobCuttingCompleted.progress_percentage = 100 →
      jobCuttingCompleted.status = "completed") ∧
    (0 < jobCuttingCompleted.progress_percentage ∧
        jobCuttingCompleted.progress_percentage < 100 →
      jobCuttingCompleted.status = "in_progress") ∧
    (jobCuttingCompleted.progress_percentage = 0 →
      jobCuttingCompleted.status = "assigned") :=
  C4_progress_and_status freshJob "cutting" (some "completed") none none 1
    jobCuttingCompleted rfl

lemma update_ok_stages (job : Job) (stage_name ns : String)
    (notes assigned_tailor : Option String) (now : Nat) (j : Job)
    (pre post : List Stage) (s : Stage)
    (hdecomp : job.workflow_stages = pre ++ s :: post)
    (hname : s.name = stage_name)
    (hpre : ∀ t ∈ pre, t.name ≠ stage_name)
    (h : update_workflow_stage job stage_name (some ns) notes assigned_tailor now =
      Except.ok j) :
    j.workflow_stages = pre ++ mutateStage s ns (notes.getD "") assigned_tailor now :: post := by
  obtain ⟨ns2, hns2, hne, hv, hfound, hj⟩ :=
    update_ok_shape job stage_name (some ns) notes assigned_tailor now j h
  obtain rfl : ns = ns2 := Option.some.inj hns2
  rw [hj]
  show (updateMatchedStage stage_name ns (notes.getD "") assigned_tailor now
    job.workflow_stages).1 = _
  rw [hdecomp,
    updateMatchedStage_decomp stage_name ns (notes.getD "") assigned_tailor now s hname
      pre hpre post]

lemma update_ok_of_decomp (job : Job) (stage_name ns : String)
    (notes assigned_tailor : Option String) (now : Nat)
    (pre post : List Stage) (s : Stage)
    (hdecomp : job.workflow_stages = pre ++ s :: post)
    (hname : s.name = stage_name)
    (hpre : ∀ t ∈ pre, t.name ≠ stage_name)
    (hne : ns ≠ "") (hv : ns ∈ valid_statuses) :
    (update_workflow_stage job stage_name (some ns) notes assigned_tailor now).isOk = true := by
  unfold update_workflow_stage
  have ht : pyTruthy (some ns) = true := by simp [pyTruthy, hne]
  rw [if_neg (by simp [ht])]
  simp only [Option.getD_some]
  rw [if_neg (by simpa using hv)]
  rw [hdecomp,
    updateMatchedStage_decomp stage_name ns (notes.getD "") assigned_tailor now s hname
      pre hpre post]
  simp
  rfl

/-- C10: a successful `update_stage` call on a job whose stages decompose
as `pre ++ s :: post` around the first stage named `stage_name` rewrites
exactly that stage (to `mutateStage s …`): every other stage keeps all its
fields, and no stage is added, removed or reordered. -/
theorem C10_frame_other_stages (job : Job) (stage_name ns : String)
    (notes assigned_tailor : Option String) (now : Nat) (j : Job)
    (pre post : List Stage) (s : Stage)
    (hdecomp : job.workflow_stages = pre ++ s :: post)
    (hname : s.name = stage_name)
    (hpre : ∀ t ∈ pre, t.name ≠ stage_name)
    (h : update_workflow_stage job stage_name (some ns) notes assigned_tailor now =
      Except.ok j) :
    j.workflow_stages = pre ++ mutateStage s ns (notes.getD "") assigned_tailor now :: post :=
  update_ok_stages job stage_name ns notes assigned_tailor now j pre post s
    hdecomp hname hpre h

/-- Witness for C10: starting `cutting` on the fresh job rewrites only the
cutting stage and keeps the other three stages in place. -/
theorem C10_frame_other_stages_witness :
    jobStarted.workflow_stages =
      [] ++ mutateStage (mkStage "cutting" "pending") "in_progress"
        ((none : Option String).getD "") none 1 ::
        [mkStage "stitching" "pending", mkStage "finishing" "pending",
         mkStage "packaging" "pending"] :=
  C10_frame_other_stages freshJob "cutting" "in_progress" none none 1 jobStarted
    [] [mkStage "stitching" "pending", mkStage "finishing" "pending",
      mkStage "packaging" "pending"] (mkStage "cutting" "pending")
    rfl rfl (by simp) rfl

/-- C6 counterexample: `started_at`, once set, can be overwritten.  On a
fresh job, starting `cutting` at time 1 sets `started_at = some 1`;
resetting the stage to `pending` at time 2 and starting it again at time 3
overwrites `started_at` to `some 3` — so a later `update_stage` call does
overwrite a non-null `started_at`, refuting the claim as stated. -/
theorem C6_counterexample :
    jobStarted.workflow_stages.map (fun s => s.started_at) = [some 1, none, none, none] ∧
    jobRestarted.workflow_stages.map (fun s => s.started_at) = [some 3, none, none, none] := by
  constructor <;> rfl

/-- C6 amended: `update_stage` sets the matched stage's `started_at` to
the current time exactly when the stage's previous status was `pending`
and the new status is `in_progress` — regardless of whether `started_at`
was already set (so re-entering `in_progress` from `pending` overwrites
it) — and leaves `started_at` unchanged in every other case; the other
stages' `started_at` values are untouched. -/
theorem C6_started_at_amended (job : Job) (stage_name ns : String)
    (notes assigned_tailor : Option String) (now : Nat) (j : Job)
    (pre post : List Stage) (s : Stage)
    (hdecomp : job.workflow_stages = pre ++ s :: post)
    (hname : s.name = stage_name)
    (hpre : ∀ t ∈ pre, t.name ≠ stage_name)
    (h : update_workflow_stage job stage_name (some ns) notes assigned_tailor now =
      Except.ok j) :
    j.workflow_stages = pre ++ mutateStage s ns (notes.getD "") assigned_tailor now :: post ∧
    (mutateStage s ns (notes.getD "") assigned_tailor now).started_at =
      (if s.status = "pending" ∧ ns = "in_progress" then some now else s.started_at) :=
  ⟨update_ok_stages job stage_name ns notes assigned_tailor now j pre post s
      hdecomp hname hpre h,
    mutateStage_started_at s ns (notes.getD "") assigned_tailor now⟩

/-- Witness for C6's amended statement: starting a pending `cutting` stage
at time 1 sets its `started_at` to 1. -/
theorem C6_started_at_amended_witness :
    jobStarted.workflow_stages =
      [] ++ mutateStage (mkStage "cutting" "pending") "in_progress"
        ((none : Option String).getD "") none 1 ::
        [mkStage "stitching" "pending", mkStage "finishing" "pending",
         mkStage "packaging" "pending"] ∧
    (mutateStage (mkStage "cutting" "pending") "in_progress"
        ((none : Option String).getD "") none 1).started_at =
      (if (mkStage "cutting" "pending").status = "pending" ∧ "in_progress" = "in_progress"
        then some 1 else (mkStage "cutting" "pending").started_at) :=
  C6_started_at_amended freshJob "cutting" "in_progress" none none 1 jobStarted
    [] [mkStage "stitching" "pending", mkStage "finishing" "pending",
      mkStage "packaging" "pending"] (mkStage "cutting" "pending")
    rfl rfl (by simp) rfl

/-- C7: on a stage whose status is `pending` and whose `started_at` is
null, calling `update_stage` with new status `completed` (skipping
`in_progress`) succeeds, leaves `started_at` null, and sets `completed_at`
to the current time. -/
theorem C7_direct_complete (job : Job) (stage_name : String)
    (notes assigned_tailor : Option String) (now : Nat)
    (pre post : List Stage) (s : Stage)
    (hdecomp : job.workflow_stages = pre ++ s :: post)
    (hname : s.name = stage_name)
    (hpre : ∀ t ∈ pre, t.name ≠ stage_name)
    (hpending : s.status = "pending")
    (hstarted : s.started_at = none) :
    (update_workflow_stage job stage_name (some "completed") notes assigned_tailor now).isOk
      = true ∧
    (apply_update job stage_name (some "completed") notes assigned_tailor now).workflow_stages
      = pre ++ mutateStage s "completed" (notes.getD "") assigned_tailor now :: post ∧
    (mutateStage s "completed" (notes.getD "") assigned_tailor now).started_at = none ∧
    (mutateStage s "completed" (notes.getD "") assigned_tailor now).completed_at = some now := by
  have hok := update_ok_of_decomp job stage_name "completed" notes assigned_tailor now
    pre post s hdecomp hname hpre (by decide) (by decide)
  refine ⟨hok, ?_, ?_, ?_⟩
  · cases hu : update_workflow_stage job stage_name (some "completed") notes assigned_tailor
      now with
    | error e =>
      rw [hu] at hok
      exact absurd hok (by simp [Except.isOk, Except.toBool])
    | ok j =>
      have hstages := update_ok_stages job stage_name "completed" notes assigned_tailor now j
        pre post s hdecomp hname hpre hu
      unfold apply_update
      rw [hu]
      exact hstages
  · rw [mutateStage_started_at]
    rw [if_neg (fun hc => absurd hc.2 (by decide))]
    exact hstarted
  · rw [mutateStage_completed_at, if_pos rfl]

/-- Witness for C7: directly completing the untouched pending `cutting`
stage at time 1 succeeds, leaves `started_at` null and sets
`completed_at` to 1. -/
theorem C7_direct_complete_witness :
    (update_workflow_stage freshJob "cutting" (some "completed") none none 1).isOk = true ∧
    (apply_update freshJob "cutting" (some "completed") none none 1).workflow_stages
      = [] ++ mutateStage (mkStage "cutting" "pending") "completed"
          ((none : Option String).getD "") none 1 ::
          [mkStage "stitching" "pending", mkStage "finishing" "pending",
           mkStage "packaging" "pending"] ∧
    (mutateStage (mkStage "cutting" "pending") "completed"
        ((none : Option String).getD "") none 1).started_at = none ∧
    (mutateStage (mkStage "cutting" "pending") "completed"
        ((none : Option String).getD "") none 1).completed_at = some 1 :=
  C7_direct_complete freshJob "cutting" none none 1
    [] [mkStage "stitching" "pending", mkStage "finishing" "pending",
      mkStage "packaging" "pending"] (mkStage "cutting" "pending")
    rfl rfl (by simp) rfl rfl

/-- C8 counterexample: `notes` is overwritten even when no notes are
provided.  On a job whose `cutting` stage carries notes `"old"`, an
`update_stage` call without a notes field replaces them with the empty
string (the code's `data.get('notes', '')` default is assigned
unconditionally), so the existing notes are not left unchanged. -/
theorem C8_counterexample :
    notesJob.workflow_stages.map (fun s => s.notes) = [some "old", none, none, none] ∧
    (apply_update notesJob "cutting" (some "in_progress") none none 1).workflow_stages.map
      (fun s => s.notes) = [some "", none, none, none] := by
  constructor <;> rfl

/-- C8 amended: on the matched stage, `update_stage` always overwrites
`notes` — with the provided value when present and with the empty string
when absent — while `assigned_tailor` is set only when a non-empty value
is provided and is otherwise left unchanged; `status` and `updated_at`
are always set. -/
theorem C8_notes_tailor_amended (job : Job) (stage_name ns : String)
    (notes assigned_tailor : Option String) (now : Nat) (j : Job)
    (pre post : List Stage) (s : Stage)
    (hdecomp : job.workflow_stages = pre ++ s :: post)
    (hname : s.name = stage_name)
    (hpre : ∀ t ∈ pre, t.name ≠ stage_name)
    (h : update_workflow_stage job stage_name (some ns) notes assigned_tailor now =
      Except.ok j) :
    j.workflow_stages = pre ++ mutateStage s ns (notes.getD "") assigned_tailor now :: post ∧
    (mutateStage s ns (notes.getD "") assigned_tailor now).notes = some (notes.getD "") ∧
    (mutateStage s ns (notes.getD "") assigned_tailor now).assigned_tailor =
      (if pyTruthy assigned_tailor then assigned_tailor else s.assigned_tailor) ∧
    (mutateStage s ns (notes.getD "") assigned_tailor now).status = ns ∧
    (mutateStage s ns (notes.getD "") assigned_tailor now).updated_at = now :=
  ⟨update_ok_stages job stage_name ns notes assigned_tailor now j pre post s
      hdecomp hname hpre h,
    mutateStage_notes s ns (notes.getD "") assigned_tailor now,
    mutateStage_assigned_tailor s ns (notes.getD "") assigned_tailor now,
    mutateStage_status s ns (notes.getD "") assigned_tailor now,
    mutateStage_updated_at s ns (notes.getD "") assigned_tailor now⟩

/-- Witness for C8's amended statement: updating `cutting` on the job with
pre-existing notes and no notes in the request overwrites the notes with
the empty string and leaves `assigned_tailor` unchanged. -/
theorem C8_notes_tailor_amended_witness :
    (apply_update notesJob "cutting" (some "in_progress") none none 1).workflow_stages =
      [] ++ mutateStage { mkStage "cutting" "pending" with notes := some "old" } "in_progress"
        ((none : Option String).getD "") none 1 ::
        [mkStage "stitching" "pending", mkStage "finishing" "pending",
         mkStage "packaging" "pending"] ∧
    (mutateStage { mkStage "cutting" "pending" with notes := some "old" } "in_progress"
        ((none : Option String).getD "") none 1).notes =
      some ((none : Option String).getD "") ∧
    (mutateStage { mkStage "cutting" "pending" with notes := some "old" } "in_progress"
        ((none : Option String).getD "") none 1).assigned_tailor =
      (if pyTruthy none then none else
        ({ mkStage "cutting" "pending" with notes := some "old" } : Stage).assigned_tailor) ∧
    (mutateStage { mkStage "cutting" "pending" with notes := some "old" } "in_progress"
        ((none : Option String).getD "") none 1).status = "in_progress" ∧
    (mutateStage { mkStage "cutting" "pending" with notes := some "old" } "in_progress"
        ((none : Option String).getD "") none 1).updated_at = 1 :=
  C8_notes_tailor_amended notesJob "cutting" "in_progress" none none 1
    (apply_update notesJob "cutting" (some "in_progress") none none 1)
    [] [mkStage "stitching" "pending", mkStage "finishing" "pending",
      mkStage "packaging" "pending"]
    { mkStage "cutting" "pending" with notes := some "old" }
    rfl rfl (by simp) rfl

lemma currentStageLoop_congr : ∀ (xs ys : List Stage),
    xs.map (fun s => (s.name, s.status)) = ys.map (fun s => (s.name, s.status)) →
    ∀ (i : Nat) (cur : String), currentStageLoop xs i cur = currentStageLoop ys i cur
  | [], [], _, _, _ => rfl
  | [], _ :: _, h, _, _ => by simp at h
  | _ :: _, [], h, _, _ => by simp at h
  | x :: xs, y :: ys, h, i, cur => by
    simp only [List.map_cons, List.cons.injEq, Prod.mk.injEq] at h
    obtain ⟨⟨hn, hs⟩, htl⟩ := h
    simp only [currentStageLoop]
    rw [hn, hs]
    split_ifs
    · rfl
    · exact currentStageLoop_congr xs ys htl (i + 1) (stage_names.getD (i + 1) "")
    · exact currentStageLoop_congr xs ys htl (i + 1) cur

lemma scan_agrees (s0 s1 s2 s3 : String)
    (h0 : s0 ∈ valid_statuses) (h1 : s1 ∈ valid_statuses)
    (h2 : s2 ∈ valid_statuses) (h3 : s3 ∈ valid_statuses) :
    specCurrentStage [s0, s1, s2, s3] = none ∨
    specCurrentStage [s0, s1, s2, s3] =
      some (currentStageLoop (canonStages s0 s1 s2 s3) 0 "cutting") := by
  simp only [valid_statuses, List.mem_cons, List.not_mem_nil, or_false] at h0 h1 h2 h3
  rcases h0 with rfl | rfl | rfl | rfl <;> rcases h1 with rfl | rfl | rfl | rfl <;>
    rcases h2 with rfl | rfl | rfl | rfl <;> rcases h3 with rfl | rfl | rfl | rfl <;> decide

lemma stages_of_names : ∀ (l : List Stage), l.map (fun s => s.name) = stage_names →
    ∃ a b c d, l = [a, b, c, d] ∧ a.name = "cutting" ∧ b.name = "stitching" ∧
      c.name = "finishing" ∧ d.name = "packaging" := by
  intro l h
  match l with
  | [a, b, c, d] =>
    simp only [List.map_cons, List.map_nil, stage_names, List.cons.injEq, and_true] at h
    exact ⟨a, b, c, d, rfl, h.1, h.2.1, h.2.2.1, h.2.2.2⟩
  | [] => simp [stage_names] at h
  | [_] => simp [stage_names] at h
  | [_, _] => simp [stage_names] at h
  | [_, _, _] => simp [stage_names] at h
  | _ :: _ :: _ :: _ :: _ :: _ => simp [stage_names] at h

/-- C5: after every successful `update_stage` call on a job carrying the
four canonical stages (statuses among the four valid ones), the job's
`current_stage` agrees with the specification's scan (`specCurrentStage`)
over the resulting statuses in the fixed order cutting, stitching,
finishing, packaging, wherever that scan is defined: the first
`in_progress`/`on_hold` stage; otherwise the stage following the last
`completed` stage; and `packaging` when all four are completed. -/
theorem C5_current_stage_agrees (job : Job) (stage_name : String)
    (new_status notes assigned_tailor : Option String) (now : Nat) (j : Job)
    (hnames : job.workflow_stages.map (fun s => s.name) = stage_names)
    (hvalid : ∀ s ∈ job.workflow_stages, s.status ∈ valid_statuses)
    (h : update_workflow_stage job stage_name new_status notes assigned_tailor now =
      Except.ok j)
    (r : String)
    (hspec : specCurrentStage (j.workflow_stages.map (fun s => s.status)) = some r) :
    j.current_stage = r := by
  obtain ⟨ns, hns, hne, hv, hfound, hj⟩ :=
    update_ok_shape job stage_name new_status notes assigned_tailor now j h
  have hjw : j.workflow_stages =
      (updateMatchedStage stage_name ns (notes.getD "") assigned_tailor now
        job.workflow_stages).1 := by rw [hj]
  have hjc : j.current_stage =
      currentStageLoop
        (updateMatchedStage stage_name ns (notes.getD "") assigned_tailor now
          job.workflow_stages).1 0 "cutting" := by rw [hj]
  have hnames2 : (updateMatchedStage stage_name ns (notes.getD "") assigned_tailor now
      job.workflow_stages).1.map (fun s => s.name) = stage_names := by
    rw [updateMatchedStage_names]
    exact hnames
  have hvalid2 : ∀ s ∈ (updateMatchedStage stage_name ns (notes.getD "") assigned_tailor now
      job.workflow_stages).1, s.status ∈ valid_statuses :=
    updateMatchedStage_valid_statuses stage_name ns (notes.getD "") assigned_tailor now hv
      job.workflow_stages hvalid
  obtain ⟨a, b, c, d, hl, hna, hnb, hnc, hnd⟩ := stages_of_names _ hnames2
  have hva : a.status ∈ valid_statuses := hvalid2 a (by rw [hl]; simp)
  have hvb : b.status ∈ valid_statuses := hvalid2 b (by rw [hl]; simp)
  have hvc : c.status ∈ valid_statuses := hvalid2 c (by rw [hl]; simp)
  have hvd : d.status ∈ valid_statuses := hvalid2 d (by rw [hl]; simp)
  have hkey : (updateMatchedStage stage_name ns (notes.getD "") assigned_tailor now
      job.workflow_stages).1.map (fun s => (s.name, s.status)) =
      (canonStages a.status b.status c.status d.status).map (fun s => (s.name, s.status)) := by
    rw [hl]
    simp [canonStages, mkStage, hna, hnb, hnc, hnd]
  have hloop := currentStageLoop_congr _ _ hkey 0 "cutting"
  rw [hjw, hl] at hspec
  simp only [List.map_cons, List.map_nil] at hspec
  rcases scan_agrees a.status b.status c.status d.status hva hvb hvc hvd with hnone | hsome
  · rw [hspec] at hnone
    exact absurd hnone (by simp)
  · rw [hspec] at hsome
    rw [hjc, hloop]
    exact (Option.some.inj hsome).symm

/-- Witness for C5: starting `cutting` on the fresh job makes the spec
scan yield `cutting`, matching the computed `current_stage`. -/
theorem C5_current_stage_agrees_witness : jobStarted.current_stage = "cutting" :=
  C5_current_stage_agrees freshJob "cutting" (some "in_progress") none none 1 jobStarted
    (by decide) (by decide) rfl "cutting" (by decide)
